import Mathlib

/-!
# GiantDB storage engine — verification of the specification against the source

Shallow embedding of the storage-engine core of the GiantDB repository
(a BusTub-derived teaching DBMS): the clock replacer, the buffer pool
manager, the hash-table block page, the on-disk linear-probing hash table,
and the redo pass of log recovery.

Modelling conventions:
* machine integers are `Int`/`Nat` (no overflow is reachable in the scenarios
  considered: page ids, pin counts and sizes stay tiny);
* `std::unordered_map` iteration order is unspecified in C++; it is modelled
  as an association list in insertion order (one admissible order);
* latches, thread ids and the `is_resizing_`/`is_inserting_` flags only guard
  latch acquisition in the source and never change the data flow of a
  single-threaded execution, so they are elided;
* a returned `Page*` is modelled as `Option` of the frame index
  (`nullptr` ↦ `none`, `pages_ + frame` ↦ `some frame`);
* page payload bytes are abstracted to a single `Int` value per page, which
  is all the buffer-pool claims observe.
-/

namespace GiantDB

/-- Frame metadata of `Page` (buffer/buffer_pool_manager.cpp): `page_id_`,
`pin_count_`, `is_dirty_` and the `data_` byte buffer (abstracted to one
`Int` value). A default-constructed page has `page_id_ = INVALID_PAGE_ID = -1`,
zero pin count, clean, zeroed data. -/
structure Page where
  page_id : Int
  pin_count : Int
  is_dirty : Bool
  data : Int
deriving DecidableEq, Repr

instance : Inhabited Page := ⟨⟨-1, 0, false, 0⟩⟩

/-- The external `DiskManager`, abstracted as a block store (page id ↦ page
value) plus the `AllocatePage` counter. -/
structure DiskManager where
  pages : Int → Int
  next_page_id : Int

def DiskManager.readPage (d : DiskManager) (pid : Int) : Int := d.pages pid

def DiskManager.writePage (d : DiskManager) (pid : Int) (buf : Int) : DiskManager :=
  { d with pages := fun p => if p = pid then buf else d.pages p }

/-- `DiskManager::AllocatePage`: returns the next page id and bumps the counter. -/
def DiskManager.allocatePage (d : DiskManager) : Int × DiskManager :=
  (d.next_page_id, { d with next_page_id := d.next_page_id + 1 })

/-- `ClockReplacer` (buffer/clock_replacer.cpp): `clock_set_` is the ordered
sequence of `(frame_id, reference_bit)` pairs, `cur_ptr_` the clock hand. -/
structure ClockReplacer where
  clock_set : List (Int × Nat)
  cur_ptr : Nat
deriving DecidableEq, Repr

def ClockReplacer.size (r : ClockReplacer) : Nat := r.clock_set.length

/-- The scanning loop of `ClockReplacer::Victim`.  The C++ `while (true)` loop
terminates within two sweeps of the clock once the set is non-empty; the fuel
argument makes that explicit (`none` is the unreachable fall-through
`return false`). -/
def victimLoop : Nat → List (Int × Nat) → Nat → Option (Int × List (Int × Nat) × Nat)
  | 0, _, _ => none
  | fuel + 1, cs, cur =>
    let e := cs.getD cur (0, 0)
    if e.2 = 0 then
      some (e.1, cs.eraseIdx cur, cur)
    else
      let cs' := cs.set cur (e.1, 0)
      victimLoop fuel cs' ((cur + 1) % cs'.length)

/-- `ClockReplacer::Victim`: returns `false` immediately when empty, else scans
from the hand, clearing reference bits, and removes/returns the first frame
whose bit is 0. -/
def ClockReplacer.victim (r : ClockReplacer) : Option Int × ClockReplacer :=
  if r.size = 0 then (none, r)
  else
    match victimLoop (2 * r.clock_set.length + 1) r.clock_set r.cur_ptr with
    | some (f, cs, cur) => (some f, { clock_set := cs, cur_ptr := cur })
    | none => (none, r)

/-- `ClockReplacer::Pin`: erase the frame if present and park the hand at its
index. -/
def ClockReplacer.pin (r : ClockReplacer) (f : Int) : ClockReplacer :=
  match r.clock_set.findIdx? (fun e => e.1 = f) with
  | some i => { clock_set := r.clock_set.eraseIdx i, cur_ptr := i }
  | none => r

/-- `ClockReplacer::Unpin`: set the reference bit if present, else append
`(frame, 1)`. -/
def ClockReplacer.unpin (r : ClockReplacer) (f : Int) : ClockReplacer :=
  match r.clock_set.findIdx? (fun e => e.1 = f) with
  | some i => { r with clock_set := r.clock_set.set i (f, 1) }
  | none => { r with clock_set := r.clock_set ++ [(f, 1)] }

/-- Association-list lookup standing in for `page_table_.count` /
`page_table_[k]` reads. -/
def ptLookup (pt : List (Int × Int)) (k : Int) : Option Int :=
  match pt.find? (fun e => e.1 = k) with
  | some e => some e.2
  | none => none

/-- Remove the entry with the given key (the `page_table_.erase(iter)` step). -/
def ptErase (pt : List (Int × Int)) (k : Int) : List (Int × Int) :=
  match pt with
  | [] => []
  | e :: rest => if e.1 = k then rest else e :: ptErase rest k

/-- Scan of `page_table_` for the entry whose value is the chosen frame
(the `for (iter ...) if (iter->second == frame)` loop of the miss paths). -/
def ptFindFrame (pt : List (Int × Int)) (f : Int) : Option Int :=
  match pt.find? (fun e => e.2 = f) with
  | some e => some e.1
  | none => none

/-- `BufferPoolManager` state (buffer/buffer_pool_manager.cpp). -/
structure BufferPoolManager where
  pool_size : Nat
  pages : List Page
  page_table : List (Int × Int)
  free_list : List Int
  replacer : ClockReplacer
  disk : DiskManager

/-- The constructor: all frames default-constructed and placed on the free
list, empty page table, empty replacer. -/
def mkBufferPool (pool_size : Nat) (disk : DiskManager) : BufferPoolManager :=
  { pool_size := pool_size
    pages := List.replicate pool_size default
    page_table := []
    free_list := (List.range pool_size).map Int.ofNat
    replacer := { clock_set := [], cur_ptr := 0 }
    disk := disk }

/-- Shared victim selection of `FetchPageImpl`/`NewPageImpl`: pop the free
list if non-empty, else ask the replacer. -/
def pickFrame (bpm : BufferPoolManager) : Option Int × BufferPoolManager :=
  match bpm.free_list with
  | f :: rest => (some f, { bpm with free_list := rest })
  | [] =>
    match bpm.replacer.victim with
    | (some f, r') => (some f, { bpm with replacer := r' })
    | (none, r') => (none, { bpm with replacer := r' })

/-- `BufferPoolManager::FetchPageImpl`, translated line by line.  On a hit the
source returns `pages_ + frame` with no further bookkeeping.  On a miss it
selects a victim, rewrites the page table only inside the loop that finds an
existing mapping for the victim frame, flushes a dirty victim, installs the
new metadata — and then falls through to `return nullptr`. -/
def fetchPage (bpm : BufferPoolManager) (page_id : Int) : Option Nat × BufferPoolManager :=
  match ptLookup bpm.page_table page_id with
  | some f => (some f.toNat, bpm)
  | none =>
    match pickFrame bpm with
    | (none, bpm') => (none, bpm')
    | (some frame, bpm') =>
      let (old_page_id, pt') :=
        match ptFindFrame bpm'.page_table frame with
        | some old => (old, ptErase bpm'.page_table old ++ [(page_id, frame)])
        | none => ((-1 : Int), bpm'.page_table)
      let idx := frame.toNat
      let victim := bpm'.pages.getD idx default
      let disk' :=
        if victim.is_dirty then bpm'.disk.writePage old_page_id victim.data
        else bpm'.disk
      let newPg : Page :=
        { page_id := page_id, pin_count := 1, is_dirty := false
          data := disk'.readPage page_id }
      (none,
        { bpm' with
            page_table := pt'
            pages := bpm'.pages.set idx newPg
            disk := disk' })

/-- `BufferPoolManager::UnpinPageImpl`, translated line by line.  The lookup
is `page_table_[page_id]`, i.e. `operator[]`, which default-inserts a mapping
to frame 0 when the page is absent. -/
def unpinPage (bpm : BufferPoolManager) (page_id : Int) (is_dirty : Bool) :
    Bool × BufferPoolManager :=
  let (frame_id, pt) :=
    match ptLookup bpm.page_table page_id with
    | some f => (f, bpm.page_table)
    | none => ((0 : Int), bpm.page_table ++ [(page_id, 0)])
  let bpm1 := { bpm with page_table := pt }
  let idx := frame_id.toNat
  let pg := bpm1.pages.getD idx default
  if pg.pin_count ≤ 0 then (false, bpm1)
  else
    let pg' := { pg with is_dirty := is_dirty, pin_count := pg.pin_count - 1 }
    let bpm2 := { bpm1 with pages := bpm1.pages.set idx pg' }
    if pg'.pin_count = 0 then
      (true, { bpm2 with replacer := bpm2.replacer.unpin frame_id })
    else (true, bpm2)

/-- `BufferPoolManager::NewPageImpl`, translated line by line: allocate a page
id from the disk manager and store it through the out-parameter first, then
pick a frame (free list preferred), rewrite the page table only inside the
loop over existing mappings, flush a dirty victim, install metadata, zero the
frame, return the frame pointer.  Result: `(frame pointer, *page_id, state)`. -/
def newPage (bpm : BufferPoolManager) : Option Nat × Int × BufferPoolManager :=
  let (pid, disk') := bpm.disk.allocatePage
  let bpm0 := { bpm with disk := disk' }
  match pickFrame bpm0 with
  | (none, bpm') => (none, pid, bpm')
  | (some frame, bpm') =>
    let (old_page_id, pt') :=
      match ptFindFrame bpm'.page_table frame with
      | some old => (old, ptErase bpm'.page_table old ++ [(pid, frame)])
      | none => ((-1 : Int), bpm'.page_table)
    let idx := frame.toNat
    let victim := bpm'.pages.getD idx default
    let disk'' :=
      if victim.is_dirty then bpm'.disk.writePage old_page_id victim.data
      else bpm'.disk
    let newPg : Page := { page_id := pid, pin_count := 1, is_dirty := false, data := 0 }
    (some idx, pid,
      { bpm' with
          page_table := pt'
          pages := bpm'.pages.set idx newPg
          disk := disk'' })

/-! Concrete buffer-pool states used as failing inputs. -/

/-- C1 scenario: a freshly constructed pool of size 1 over a disk whose every
page holds the value 17. -/
def bpmC1 : BufferPoolManager := mkBufferPool 1 ⟨fun _ => 17, 100⟩

/-- C2 scenario: page 7 is resident in frame 0 with pin count 0, and frame 0
sits in the replacer with its reference bit set. -/
def bpmC2 : BufferPoolManager :=
  { pool_size := 1, pages := [⟨7, 0, false, 0⟩], page_table := [(7, 0)]
    free_list := [], replacer := ⟨[(0, 1)], 0⟩, disk := ⟨fun _ => 0, 8⟩ }

/-- C3 scenario: page 3 is resident in frame 0, pinned once, with its dirty
bit already set. -/
def bpmC3 : BufferPoolManager :=
  { pool_size := 1, pages := [⟨3, 1, true, 0⟩], page_table := [(3, 0)]
    free_list := [], replacer := ⟨[], 0⟩, disk := ⟨fun _ => 0, 4⟩ }

/-- C4 scenario: page 7 is resident in frame 0 and pinned; page 42 is not
resident anywhere. -/
def bpmC4 : BufferPoolManager :=
  { pool_size := 1, pages := [⟨7, 1, false, 0⟩], page_table := [(7, 0)]
    free_list := [], replacer := ⟨[], 0⟩, disk := ⟨fun _ => 0, 8⟩ }

/-- C5/C10 scenario: a freshly constructed pool of size 1 over an empty disk. -/
def bpmC5 : BufferPoolManager := mkBufferPool 1 ⟨fun _ => 0, 0⟩

/-!
## Hash-table block page (storage/page/hash_table_block_page.cpp)

`occupied_` and `readable_` are byte arrays manipulated one bit per slot;
they are modelled as `List Nat`, one element per byte.  The C++ bitwise ops
act on an 8-bit `char`, so `&= ~(1 << bit)` clears one bit of the low byte,
modelled as `&&& (255 ^^^ (1 <<< bit))`.
-/

structure HashTableBlockPage (K V : Type) where
  occupied_ : List Nat
  readable_ : List Nat
  array_ : List (K × V)
deriving Repr, DecidableEq

instance {K V : Type} : Inhabited (HashTableBlockPage K V) := ⟨⟨[], [], []⟩⟩

namespace HashTableBlockPage

variable {K V : Type} [Inhabited K] [Inhabited V]

/-- `HASH_TABLE_BLOCK_TYPE::KeyAt`. -/
def keyAt (p : HashTableBlockPage K V) (bucket_ind : Nat) : K :=
  (p.array_.getD bucket_ind default).1

/-- `HASH_TABLE_BLOCK_TYPE::ValueAt`. -/
def valueAt (p : HashTableBlockPage K V) (bucket_ind : Nat) : V :=
  (p.array_.getD bucket_ind default).2

/-- `HASH_TABLE_BLOCK_TYPE::Insert`: refuse when the slot is readable,
otherwise store the pair and set both the occupied and the readable bit. -/
def insert (p : HashTableBlockPage K V) (bucket_ind : Nat) (key : K) (value : V) :
    Bool × HashTableBlockPage K V :=
  let byte_num := bucket_ind / 8
  let bit_num := bucket_ind % 8
  let and_val := 1 <<< bit_num
  if p.readable_.getD byte_num 0 &&& and_val != 0 then (false, p)
  else
    (true,
      { array_ := p.array_.set bucket_ind (key, value)
        occupied_ := p.occupied_.set byte_num (p.occupied_.getD byte_num 0 ||| and_val)
        readable_ := p.readable_.set byte_num (p.readable_.getD byte_num 0 ||| and_val) })

/-- `HASH_TABLE_BLOCK_TYPE::Remove`: clear the readable bit only. -/
def remove (p : HashTableBlockPage K V) (bucket_ind : Nat) : HashTableBlockPage K V :=
  let byte_num := bucket_ind / 8
  let bit_num := bucket_ind % 8
  { p with
      readable_ :=
        p.readable_.set byte_num (p.readable_.getD byte_num 0 &&& (255 ^^^ (1 <<< bit_num))) }

/-- `HASH_TABLE_BLOCK_TYPE::IsOccupied`. -/
def isOccupied (p : HashTableBlockPage K V) (bucket_ind : Nat) : Bool :=
  p.occupied_.getD (bucket_ind / 8) 0 &&& (1 <<< (bucket_ind % 8)) != 0

/-- `HASH_TABLE_BLOCK_TYPE::IsReadable`. -/
def isReadable (p : HashTableBlockPage K V) (bucket_ind : Nat) : Bool :=
  p.readable_.getD (bucket_ind / 8) 0 &&& (1 <<< (bucket_ind % 8)) != 0

/-- `HASH_TABLE_BLOCK_TYPE::SlotNum`: `sizeof(readable_) * 8`. -/
def slotNum (p : HashTableBlockPage K V) : Nat := 8 * p.readable_.length

end HashTableBlockPage

/-- A zeroed block page as produced by `BufferPoolManager::NewPage` (the pool
zeroes the frame): all bits clear, default-initialized mapping array. -/
def emptyBlock (K V : Type) [Inhabited K] [Inhabited V] (slot_num : Nat) :
    HashTableBlockPage K V :=
  ⟨List.replicate (slot_num / 8) 0, List.replicate (slot_num / 8) 0,
    List.replicate slot_num default⟩

/-!
## Linear-probing hash table (container/hash/linear_probe_hash_table.cpp)

The buffer pool is abstracted as all block pages resident: the header's
`block_page_ids_` sequence composed with page lookup becomes the list
`blocks_`, indexed by `bucket_id`.  Pin/unpin bookkeeping, the table latch,
and the `resize_thread_id_`/`is_resizing_`/`is_inserting_` reentrancy flags
guard only latch acquisition and are elided.  `comparator_(a,b) == 0` is
modelled as decidable equality, `hash_fn_.GetHash` as the `hash_fn_` field.

`Insert` and `Resize` are mutually recursive through rehashing; termination
in C++ is only bounded by the 4080-block cap, so the embedding threads an
explicit fuel that every recursive call consumes.  `none` means the fuel ran
out; every concrete run below is shown to return `some`, i.e. to be the run
the source performs.
-/

structure LinearProbeHashTable (K V : Type) where
  size_ : Nat
  slot_num_per_page_ : Nat
  blocks_ : List (HashTableBlockPage K V)
  hash_fn_ : K → Nat

section HashTable

variable {K V : Type} [DecidableEq K] [DecidableEq V] [Inhabited K] [Inhabited V]

/-- The four mutually recursive pieces of `Insert`/`Resize` at one fuel
level: the probe loop of `Insert`, `Insert` itself, `Resize`, and the rehash
loop of `Resize`.  The mutual recursion is tied by explicit `Nat.rec` over
the fuel (every cross-call descends one level), which keeps the definitions
kernel-reducible so that the concrete runs below evaluate by `decide`. -/
def HashFuns (K V : Type) : Type :=
  (LinearProbeHashTable K V → K → V → Nat → Nat → Nat →
      Option (Bool × LinearProbeHashTable K V)) ×
  (LinearProbeHashTable K V → K → V → Option (Bool × LinearProbeHashTable K V)) ×
  (LinearProbeHashTable K V → Nat → Option (LinearProbeHashTable K V)) ×
  (LinearProbeHashTable K V → Nat → Nat → Option (LinearProbeHashTable K V))

/-- Fuel exhausted: every operation answers `none`. -/
def hashFunsZero : HashFuns K V :=
  (fun _ _ _ _ _ _ => none, fun _ _ _ => none, fun _ _ => none, fun _ _ _ => none)

/-- One fuel level of the four operations, each translated line by line from
container/hash/linear_probe_hash_table.cpp.

* probe loop of `Insert` (arguments `ht key value hash_val bucket_id
  slot_idx`): while the current slot is readable, report a duplicate
  `(key, value)`; advance; call `Resize(size_ * 2)` when `hash_val` runs past
  `size_`; on crossing a page boundary fail at the 4080-block cap; finally
  `bucket_page->Insert` into the first non-readable slot;
* `Insert`: compute the start slot from `hash_fn_(key) % size_` and run the
  probe loop;
* `Resize(initial_size)`: grow the block-page sequence to
  `ceil(initial_size / slot_num_per_page_)` pages (the abstracted pool always
  provides a fresh zeroed page), set `size_ := initial_size`, rehash the old
  range, then assign `size_ := initial_size` once more — the trailing
  assignment the source performs after the rehash loop;
* rehash loop: for each old logical slot, if readable, `Remove` it, read the
  pair back, and re-`Insert` it under the new modulus. -/
def hashFunsSucc (prev : HashFuns K V) : HashFuns K V :=
  (fun ht key value hash_val bucket_id slot_idx =>
    let page := ht.blocks_.getD bucket_id default
    if page.isReadable slot_idx then
      if page.keyAt slot_idx = key ∧ page.valueAt slot_idx = value then
        some (false, ht)
      else
        let slot1 := slot_idx + 1
        let hv1 := hash_val + 1
        match (if hv1 ≥ ht.size_ then prev.2.2.1 ht (ht.size_ * 2) else some ht) with
        | none => none
        | some ht1 =>
          if slot1 ≥ ht1.slot_num_per_page_ then
            if bucket_id + 1 ≥ 4080 then some (false, ht1)
            else prev.1 ht1 key value hv1 (bucket_id + 1) 0
          else prev.1 ht1 key value hv1 bucket_id slot1
    else
      let (r, page') := page.insert slot_idx key value
      some (r, { ht with blocks_ := ht.blocks_.set bucket_id page' }),
   fun ht key value =>
    let hash_val := ht.hash_fn_ key % ht.size_
    let bucket_id := hash_val / ht.slot_num_per_page_
    let slot_idx := hash_val % ht.slot_num_per_page_
    prev.1 ht key value hash_val bucket_id slot_idx,
   fun ht initial_size =>
    let new_page_num :=
      initial_size / ht.slot_num_per_page_ +
        (if initial_size % ht.slot_num_per_page_ != 0 then 1 else 0)
    let ht0 :=
      { ht with
          blocks_ :=
            ht.blocks_ ++
              List.replicate (new_page_num - ht.blocks_.length)
                (emptyBlock K V ht.slot_num_per_page_) }
    let old_size := ht0.size_
    let ht1 := { ht0 with size_ := initial_size }
    match prev.2.2.2 ht1 0 old_size with
    | none => none
    | some ht2 => some { ht2 with size_ := initial_size },
   fun ht i old_size =>
    if i ≥ old_size then some ht
    else
      let old_page_idx := i / ht.slot_num_per_page_
      let old_slot_idx := i % ht.slot_num_per_page_
      let page := ht.blocks_.getD old_page_idx default
      if page.isReadable old_slot_idx then
        let page' := page.remove old_slot_idx
        let key := page'.keyAt old_slot_idx
        let val := page'.valueAt old_slot_idx
        let ht' := { ht with blocks_ := ht.blocks_.set old_page_idx page' }
        match prev.2.1 ht' key val with
        | none => none
        | some (_, ht'') => prev.2.2.2 ht'' (i + 1) old_size
      else prev.2.2.2 ht (i + 1) old_size)

/-- The fuel-indexed family tying the mutual recursion together. -/
def hashFuns (fuel : Nat) : HashFuns K V :=
  Nat.rec hashFunsZero (fun _ prev => hashFunsSucc prev) fuel

/-- The probe loop of `LinearProbeHashTable::Insert` (see `hashFunsSucc`). -/
def insertLoop (fuel : Nat) (ht : LinearProbeHashTable K V) (key : K) (value : V)
    (hash_val bucket_id slot_idx : Nat) :
    Option (Bool × LinearProbeHashTable K V) :=
  (hashFuns fuel).1 ht key value hash_val bucket_id slot_idx

/-- `LinearProbeHashTable::Insert` (see `hashFunsSucc`). -/
def insertTop (fuel : Nat) (ht : LinearProbeHashTable K V) (key : K) (value : V) :
    Option (Bool × LinearProbeHashTable K V) :=
  (hashFuns fuel).2.1 ht key value

/-- `LinearProbeHashTable::Resize` (see `hashFunsSucc`). -/
def resize (fuel : Nat) (ht : LinearProbeHashTable K V) (initial_size : Nat) :
    Option (LinearProbeHashTable K V) :=
  (hashFuns fuel).2.2.1 ht initial_size

/-- The rehash loop of `Resize` (see `hashFunsSucc`). -/
def rehashLoop (fuel : Nat) (ht : LinearProbeHashTable K V) (i old_size : Nat) :
    Option (LinearProbeHashTable K V) :=
  (hashFuns fuel).2.2.2 ht i old_size

/-- The probe loop of `LinearProbeHashTable::GetValue`: walk occupied slots,
collecting every readable slot whose key matches; stop at a non-occupied
slot or when `hash_val` reaches `size_`.  Returns the result vector and the
`ret` flag.  Defined by `Nat.rec` on fuel; the loop advances `hash_val`
strictly and stops once it reaches `size_`, so `size_ + 1` fuel suffices. -/
def getValueAux (fuel : Nat) : LinearProbeHashTable K V → K → Nat → Nat → Nat →
    List V → Bool → Option (List V × Bool) :=
  Nat.rec (motive := fun _ => LinearProbeHashTable K V → K → Nat → Nat → Nat →
      List V → Bool → Option (List V × Bool))
    (fun _ _ _ _ _ _ _ => none)
    (fun _ ih ht key hash_val bucket_id slot_idx result ret =>
      let page := ht.blocks_.getD bucket_id default
      if page.isOccupied slot_idx then
        let found := page.isReadable slot_idx ∧ page.keyAt slot_idx = key
        let result1 := if found then result ++ [page.valueAt slot_idx] else result
        let ret1 := if found then true else ret
        let slot1 := slot_idx + 1
        let hv1 := hash_val + 1
        if hv1 ≥ ht.size_ then some (result1, ret1)
        else if slot1 ≥ ht.slot_num_per_page_ then
          ih ht key hv1 (bucket_id + 1) 0 result1 ret1
        else ih ht key hv1 bucket_id slot1 result1 ret1
      else some (result, ret))
    fuel

/-- `LinearProbeHashTable::GetValue`. -/
def getValue (ht : LinearProbeHashTable K V) (key : K) : Option (List V × Bool) :=
  let hash_val := ht.hash_fn_ key % ht.size_
  let bucket_id := hash_val / ht.slot_num_per_page_
  let slot_idx := hash_val % ht.slot_num_per_page_
  getValueAux (ht.size_ + 1) ht key hash_val bucket_id slot_idx [] false

/-- The probe loop of `LinearProbeHashTable::Remove`: walk occupied slots; on
the first readable slot holding `(key, value)` clear its readable bit and
return true; stop at a non-occupied slot or when `hash_val` reaches `size_`. -/
def removeAux (fuel : Nat) : LinearProbeHashTable K V → K → V → Nat → Nat → Nat →
    Option (Bool × LinearProbeHashTable K V) :=
  Nat.rec (motive := fun _ => LinearProbeHashTable K V → K → V → Nat → Nat → Nat →
      Option (Bool × LinearProbeHashTable K V))
    (fun _ _ _ _ _ _ => none)
    (fun _ ih ht key value hash_val bucket_id slot_idx =>
      let page := ht.blocks_.getD bucket_id default
      if page.isOccupied slot_idx then
        if page.isReadable slot_idx ∧ page.keyAt slot_idx = key ∧
            page.valueAt slot_idx = value then
          some (true, { ht with blocks_ := ht.blocks_.set bucket_id (page.remove slot_idx) })
        else
          let slot1 := slot_idx + 1
          let hv1 := hash_val + 1
          if hv1 ≥ ht.size_ then some (false, ht)
          else if slot1 ≥ ht.slot_num_per_page_ then
            ih ht key value hv1 (bucket_id + 1) 0
          else ih ht key value hv1 bucket_id slot1
      else some (false, ht))
    fuel

/-- `LinearProbeHashTable::Remove`. -/
def removeEntry (ht : LinearProbeHashTable K V) (key : K) (value : V) :
    Option (Bool × LinearProbeHashTable K V) :=
  let hash_val := ht.hash_fn_ key % ht.size_
  let bucket_id := hash_val / ht.slot_num_per_page_
  let slot_idx := hash_val % ht.slot_num_per_page_
  removeAux (ht.size_ + 1) ht key value hash_val bucket_id slot_idx

/-- The `LinearProbeHashTable` constructor: one header page, one initial
block page, `size_ := SlotNum()`, then `Resize(num_buckets)`.  The block-page
geometry (`SlotNum = 8 * sizeof(readable_)`) is a compile-time constant in
the source; here the byte count is the parameter `slot_bytes`. -/
def mkHashTable (slot_bytes : Nat) (num_buckets : Nat) (hash_fn : K → Nat)
    (fuel : Nat) : Option (LinearProbeHashTable K V) :=
  let slot_num := 8 * slot_bytes
  let ht0 : LinearProbeHashTable K V :=
    { size_ := slot_num, slot_num_per_page_ := slot_num
      blocks_ := [emptyBlock K V slot_num], hash_fn_ := hash_fn }
  resize fuel ht0 num_buckets

/-- Observable: how many slots of the table's addressable range currently
hold the pair `(k, v)` live (readable). -/
def livePairCount (ht : LinearProbeHashTable K V) (k : K) (v : V) : Nat :=
  ((List.range ht.size_).filter fun i =>
    let page := ht.blocks_.getD (i / ht.slot_num_per_page_) default
    page.isReadable (i % ht.slot_num_per_page_) &&
      page.keyAt (i % ht.slot_num_per_page_) = k &&
      page.valueAt (i % ht.slot_num_per_page_) = v).length

end HashTable

/-!
## Concrete hash-table runs

The hash function is a member (`hash_fn_`) of the table; the runs below pick
concrete ones.  Fuel values are generous; each run returning `some` proves
the fuel was not exhausted, i.e. the run is the one the source performs.
-/

/-- C6 failing input, on a one-page table (8 slots) with the identity hash:
`Insert(0,1); Insert(0,2); Remove(0,1); Insert(0,2)`.  The second
`Insert(0,2)` probes slot 0, which `Remove` left as a tombstone
(non-readable), and stores `(0,2)` there although a live copy sits in
slot 1.  Observables: the four op results, `GetValue(0)`, and the number of
live `(0,2)` slots. -/
def c6Run : Option (List Bool × List Nat × Bool × Nat) := do
  let ht0 ← mkHashTable (K := Nat) (V := Nat) 1 8 (fun k => k) 10
  let (r1, ht1) ← insertTop 10 ht0 0 1
  let (r2, ht2) ← insertTop 10 ht1 0 2
  let (r3, ht3) ← removeEntry ht2 0 1
  let (r4, ht4) ← insertTop 10 ht3 0 2
  let gv ← getValue ht4 0
  pure ([r1, r2, r3, r4], gv.1, gv.2, livePairCount ht4 0 2)

/-- Hash function of the C7 failing input (the hash is a table parameter;
any function exhibiting these values on five keys will do). -/
def hashC7 : Nat → Nat
  | 1 => 6
  | 2 => 7
  | 3 => 30
  | 4 => 30
  | 5 => 62
  | _ => 0

/-- C7 failing input.  Keys 1..5 with hashes 6, 7, 30, 30, 62.  Inserting
key 3 doubles the table 8 → 16 and leaves key 3 at slot 8 (its probe simply
continues past the old end instead of restarting at `30 mod 16 = 14`).
Keys 4 and 5 then land at slots 14 and 15.  The explicit `Resize 32`
(a doubling, 16 → 32) rehashes: key 3 → slot 30, key 4 → slot 31, and the
re-insert of key 5 (home `62 mod 32 = 30`) probes 30, 31 and runs past 32,
triggering a nested `Resize 64` from within the rehash; afterwards key 5's
probe continues and stores it at slot 32.  The outer resize then reassigns
`size_ := 32`, stranding the live pair `(5, 50)` at slot 32, outside the
table's addressable range.  Observables: the five insert results,
`GetValue 5` before and after the doubling resize, the final size, and the
readable bit of block 4 slot 0 (= logical slot 32). -/
def c7Run : Option (List Bool × (List Nat × Bool) × (List Nat × Bool) × (Nat × Bool)) := do
  let ht0 ← mkHashTable (K := Nat) (V := Nat) 1 8 hashC7 200
  let (r1, ht1) ← insertTop 200 ht0 1 10
  let (r2, ht2) ← insertTop 200 ht1 2 20
  let (r3, ht3) ← insertTop 200 ht2 3 30
  let (r4, ht4) ← insertTop 200 ht3 4 40
  let (r5, ht5) ← insertTop 200 ht4 5 50
  let before ← getValue ht5 5
  let ht6 ← resize 200 ht5 32
  let after ← getValue ht6 5
  pure ([r1, r2, r3, r4, r5], before, after,
        (ht6.size_, (ht6.blocks_.getD 4 default).isReadable 0))

/-!
## Log recovery, Redo pass (recovery/log_recovery.cpp)

The byte-level prefetch (`ReadLog` in `LOG_BUFFER_SIZE` chunks) and
`DeserializeLogRecord` are abstracted to the sequence of records they yield;
a record's byte offset in the log file is abstracted to its index in that
sequence.  The buffer pool is abstracted as all table pages resident
(`pages : Int → TablePage`); `NewPage`'s disk allocation is the
`next_page_id` counter.  `INVALID_PAGE_ID` and `INVALID_LSN` are `-1`.
-/

/-- A record id: page id and slot number. -/
structure RID where
  page_id : Int
  slot_num : Nat
deriving DecidableEq, Repr

/-- Tuple payloads are abstracted to an integer value. -/
abbrev Tuple := Int

/-- A log record's type tag together with its type-specific payload. -/
inductive LogRecordBody
  | BEGIN
  | COMMIT
  | ABORT
  | INSERT (rid : RID) (tuple : Tuple)
  | MARKDELETE (rid : RID) (tuple : Tuple)
  | APPLYDELETE (rid : RID) (tuple : Tuple)
  | ROLLBACKDELETE (rid : RID) (tuple : Tuple)
  | UPDATE (rid : RID) (old_tuple new_tuple : Tuple)
  | NEWPAGE (prev_page_id : Int)
deriving DecidableEq, Repr

/-- Is this a NEWPAGE record? -/
def LogRecordBody.isNewpage : LogRecordBody → Bool
  | .NEWPAGE _ => true
  | _ => false

/-- The page targeted by the record's forward effect, for the five guarded
types; `none` for BEGIN/COMMIT/ABORT/NEWPAGE. -/
def LogRecordBody.targetPage : LogRecordBody → Option Int
  | .INSERT rid _ => some rid.page_id
  | .MARKDELETE rid _ => some rid.page_id
  | .APPLYDELETE rid _ => some rid.page_id
  | .ROLLBACKDELETE rid _ => some rid.page_id
  | .UPDATE rid _ _ => some rid.page_id
  | _ => none

/-- A log record: the header fields `{lsn, txn_id, prev_lsn}` plus the
type tag and payload (`size` is a serialization artifact the record-level
model does not need). -/
structure LogRecord where
  lsn : Int
  txn_id : Int
  prev_lsn : Int
  body : LogRecordBody
deriving DecidableEq, Repr

/-- Modelled from the spec: the external `TablePage` collaborator (§6), whose
implementation is not part of this repository.  A page carries `page_lsn`
(`GetLSN`), the `prev_page_id`/`next_page_id` links, and tuple slots
(`some (tuple, deleted_mark)`, or `none` for a free slot).  `InsertTuple`
places a tuple in the first free slot (or a fresh one), `UpdateTuple`
replaces the tuple at the RID's slot, `MarkDelete` sets the mark,
`ApplyDelete` frees the slot, `RollbackDelete` clears the mark.  None of
these operations touches `page_lsn`: recovery runs with
`enable_logging == false`, the spec lists `SetLSN` as a separate operation,
and `Redo` never invokes it. -/
structure TablePage where
  page_lsn : Int
  prev_page_id : Int
  next_page_id : Int
  slots : List (Option (Tuple × Bool))
deriving DecidableEq, Repr

/-- Modelled from the spec: `TablePage::InsertTuple`. -/
def TablePage.insertTuple (p : TablePage) (t : Tuple) : TablePage :=
  match p.slots.findIdx? (fun s => s.isNone) with
  | some i => { p with slots := p.slots.set i (some (t, false)) }
  | none => { p with slots := p.slots ++ [some (t, false)] }

/-- Modelled from the spec: `TablePage::UpdateTuple` (forward direction). -/
def TablePage.updateTuple (p : TablePage) (new_t : Tuple) (rid : RID) : TablePage :=
  match p.slots.getD rid.slot_num none with
  | some (_, d) => { p with slots := p.slots.set rid.slot_num (some (new_t, d)) }
  | none => p

/-- Modelled from the spec: `TablePage::MarkDelete`. -/
def TablePage.markDelete (p : TablePage) (rid : RID) : TablePage :=
  match p.slots.getD rid.slot_num none with
  | some (t, _) => { p with slots := p.slots.set rid.slot_num (some (t, true)) }
  | none => p

/-- Modelled from the spec: `TablePage::ApplyDelete`. -/
def TablePage.applyDelete (p : TablePage) (rid : RID) : TablePage :=
  { p with slots := p.slots.set rid.slot_num none }

/-- Modelled from the spec: `TablePage::RollbackDelete`. -/
def TablePage.rollbackDelete (p : TablePage) (rid : RID) : TablePage :=
  match p.slots.getD rid.slot_num none with
  | some (t, _) => { p with slots := p.slots.set rid.slot_num (some (t, false)) }
  | none => p

/-- Modelled from the spec: `TablePage::Init(page_id, page_size,
prev_page_id)` on a freshly allocated, zero-pinned page. -/
def TablePage.init (prev_page_id : Int) : TablePage :=
  { page_lsn := -1, prev_page_id := prev_page_id, next_page_id := -1, slots := [] }

/-- The table-page store reachable from the buffer pool during recovery,
plus the disk allocator consumed by `NewPage`. -/
structure RecoveryStore where
  pages : Int → TablePage
  next_page_id : Int

/-- Point update of the page store. -/
def storeWrite (pages : Int → TablePage) (pid : Int) (pg : TablePage) :
    Int → TablePage :=
  fun q => if q = pid then pg else pages q

/-- The per-record dispatch of `LogRecovery::Redo`: for the five data record
types, fetch the target page and re-apply the forward effect iff
`page->GetLSN() < log_record.lsn_`; for NEWPAGE, allocate a new page,
initialize it with the recorded `prev_page_id`, and link the predecessor's
`next_page_id` when it is currently INVALID; BEGIN/COMMIT/ABORT touch no
page. -/
def redoRecord (st : RecoveryStore) (r : LogRecord) : RecoveryStore :=
  match r.body with
  | .INSERT rid t =>
    let page := st.pages rid.page_id
    if page.page_lsn < r.lsn then
      { st with pages := storeWrite st.pages rid.page_id (page.insertTuple t) }
    else st
  | .UPDATE rid _old new_t =>
    let page := st.pages rid.page_id
    if page.page_lsn < r.lsn then
      { st with pages := storeWrite st.pages rid.page_id (page.updateTuple new_t rid) }
    else st
  | .MARKDELETE rid _t =>
    let page := st.pages rid.page_id
    if page.page_lsn < r.lsn then
      { st with pages := storeWrite st.pages rid.page_id (page.markDelete rid) }
    else st
  | .APPLYDELETE rid _t =>
    let page := st.pages rid.page_id
    if page.page_lsn < r.lsn then
      { st with pages := storeWrite st.pages rid.page_id (page.applyDelete rid) }
    else st
  | .ROLLBACKDELETE rid _t =>
    let page := st.pages rid.page_id
    if page.page_lsn < r.lsn then
      { st with pages := storeWrite st.pages rid.page_id (page.rollbackDelete rid) }
    else st
  | .NEWPAGE prev_page_id =>
    let new_page_id := st.next_page_id
    let st1 : RecoveryStore :=
      { pages := storeWrite st.pages new_page_id (TablePage.init prev_page_id)
        next_page_id := st.next_page_id + 1 }
    if prev_page_id ≠ -1 then
      let prev_page := st1.pages prev_page_id
      if prev_page.next_page_id = -1 then
        { st1 with
            pages := storeWrite st1.pages prev_page_id
              { prev_page with next_page_id := new_page_id } }
      else st1
    else st1
  | _ => st

/-- The result of a Redo pass: the page store plus the `active_txn_` and
`lsn_mapping_` tables it builds. -/
structure RedoResult where
  store : RecoveryStore
  active_txn : List (Int × Int)
  lsn_mapping : List (Int × Int)

/-- `map[k] = v` on an association list (`operator[]` assignment). -/
def alStore (m : List (Int × Int)) (k v : Int) : List (Int × Int) :=
  match m.findIdx? (fun e => e.1 = k) with
  | some i => m.set i (k, v)
  | none => m ++ [(k, v)]

/-- One iteration of the `Redo` loop: record `lsn_mapping_[lsn] = offset`,
erase the txn on COMMIT/ABORT or store `active_txn_[txn] = lsn` otherwise,
then dispatch on the record type. -/
def redoStep (acc : RedoResult × Int) (r : LogRecord) : RedoResult × Int :=
  let lmap := alStore acc.1.lsn_mapping r.lsn acc.2
  let atxn :=
    match r.body with
    | .COMMIT => ptErase acc.1.active_txn r.txn_id
    | .ABORT => ptErase acc.1.active_txn r.txn_id
    | _ => alStore acc.1.active_txn r.txn_id r.lsn
  (⟨redoRecord acc.1.store r, atxn, lmap⟩, acc.2 + 1)

/-- `LogRecovery::Redo`: clear both tables, then process every parsed record
in log order. -/
def redo (log : List LogRecord) (st : RecoveryStore) : RedoResult :=
  (log.foldl redoStep (⟨st, [], []⟩, 0)).1

/-- Modelled from the spec: the per-record dispatch under the amended
premise that re-applying a record also advances the target page's
`page_lsn` to the record's LSN (the condition the spec's idempotence
property presumes).  Identical to `redoRecord` except that each applied
forward effect also sets `page_lsn := lsn`. -/
def redoRecordAdv (st : RecoveryStore) (r : LogRecord) : RecoveryStore :=
  match r.body with
  | .INSERT rid t =>
    let page := st.pages rid.page_id
    if page.page_lsn < r.lsn then
      { st with pages := storeWrite st.pages rid.page_id
                    { page.insertTuple t with page_lsn := r.lsn } }
    else st
  | .UPDATE rid _old new_t =>
    let page := st.pages rid.page_id
    if page.page_lsn < r.lsn then
      { st with pages := storeWrite st.pages rid.page_id
                    { page.updateTuple new_t rid with page_lsn := r.lsn } }
    else st
  | .MARKDELETE rid _t =>
    let page := st.pages rid.page_id
    if page.page_lsn < r.lsn then
      { st with pages := storeWrite st.pages rid.page_id
                    { page.markDelete rid with page_lsn := r.lsn } }
    else st
  | .APPLYDELETE rid _t =>
    let page := st.pages rid.page_id
    if page.page_lsn < r.lsn then
      { st with pages := storeWrite st.pages rid.page_id
                    { page.applyDelete rid with page_lsn := r.lsn } }
    else st
  | .ROLLBACKDELETE rid _t =>
    let page := st.pages rid.page_id
    if page.page_lsn < r.lsn then
      { st with pages := storeWrite st.pages rid.page_id
                    { page.rollbackDelete rid with page_lsn := r.lsn } }
    else st
  | .NEWPAGE _ => redoRecord st r
  | _ => st

/-- The page-store component of the amended Redo pass (the `active_txn_` and
`lsn_mapping_` bookkeeping does not influence the dispatch). -/
def redoPagesAdv (log : List LogRecord) (st : RecoveryStore) : RecoveryStore :=
  log.foldl redoRecordAdv st

/-- One iteration of the amended Redo loop. -/
def redoAdvStep (acc : RedoResult × Int) (r : LogRecord) : RedoResult × Int :=
  let lmap := alStore acc.1.lsn_mapping r.lsn acc.2
  let atxn :=
    match r.body with
    | .COMMIT => ptErase acc.1.active_txn r.txn_id
    | .ABORT => ptErase acc.1.active_txn r.txn_id
    | _ => alStore acc.1.active_txn r.txn_id r.lsn
  (⟨redoRecordAdv acc.1.store r, atxn, lmap⟩, acc.2 + 1)

/-- The amended Redo pass, bookkeeping included. -/
def redoAdv (log : List LogRecord) (st : RecoveryStore) : RedoResult :=
  (log.foldl redoAdvStep (⟨st, [], []⟩, 0)).1

/-- C9 failing input: a log holding one INSERT record with LSN 1 targeting
page 0, and an initial store whose every page has `page_lsn = 0` and no
tuples. -/
def logC9 : List LogRecord := [⟨1, 0, -1, .INSERT ⟨0, 0⟩ 5⟩]

/-- C9 initial store. -/
def stC9 : RecoveryStore := ⟨fun _ => ⟨0, -1, -1, []⟩, 100⟩

/-- A concrete one-byte block page (8 slots, slot 0 live with pair (0, 0)),
used to witness the C8 theorem. -/
def pC8 : HashTableBlockPage Nat Nat := ⟨[1], [1], [(0, 0)]⟩

/-!
# Theorems
-/

theorem writePage_next (d : DiskManager) (p b : Int) :
    (d.writePage p b).next_page_id = d.next_page_id := rfl

/-- C1: the spec demands that on a miss with an available victim frame,
`FetchPage` reads the page from disk into the frame, sets
`{page_id, dirty=false, pin_count=1}` and returns a non-null pointer,
returning null only when no victim exists.  The source performs the whole
setup and then returns `nullptr`: on a fresh one-frame pool (disk pages all
hold 17), fetching page 5 consumes the free frame, installs
`{page_id=5, pin=1, clean, data=17}` — and still returns null. -/
theorem fetchPage_miss_sets_up_frame_but_returns_null :
    (fetchPage bpmC1 5).1 = none ∧
    (fetchPage bpmC1 5).2.pages.getD 0 default =
      { page_id := 5, pin_count := 1, is_dirty := false, data := 17 } ∧
    (fetchPage bpmC1 5).2.free_list = [] := by decide

/-- C2: the spec (and the function's own step comment) says a hit pins the
page and removes its frame from the replacer.  The source returns
`pages_ + frame` immediately: with page 7 resident in frame 0 at pin
count 0 and frame 0 sitting in the replacer, `FetchPage(7)` returns the
frame but leaves the pin count at 0 and the replacer untouched. -/
theorem fetchPage_hit_neither_pins_nor_removes_from_replacer :
    (fetchPage bpmC2 7).1 = some 0 ∧
    (fetchPage bpmC2 7).2.pages.getD 0 default = ⟨7, 0, false, 0⟩ ∧
    (fetchPage bpmC2 7).2.replacer = ⟨[(0, 1)], 0⟩ := by decide

/-- C3: the spec says `UnpinPage` ORs the supplied flag into the frame's
dirty bit (sticky).  The source assigns `is_dirty_ = is_dirty`: with page 3
resident, pinned once and already dirty, `UnpinPage(3, false)` returns true,
decrements the pin count — and clears the dirty bit. -/
theorem unpinPage_overwrites_sticky_dirty_bit :
    (unpinPage bpmC3 3 false).1 = true ∧
    ((unpinPage bpmC3 3 false).2.pages.getD 0 default).is_dirty = false ∧
    ((unpinPage bpmC3 3 false).2.pages.getD 0 default).pin_count = 0 := by decide

/-- C4: the spec says unpinning a non-resident page returns false without
mutating the pool.  The source reads `page_table_[page_id]` with
`operator[]`, default-inserting a mapping to frame 0, and then operates on
frame 0: with page 7 pinned in frame 0 and page 42 absent,
`UnpinPage(42, false)` returns TRUE, inserts `(42, 0)` into the page table,
unpins frame 0 (pin count 1 → 0) and pushes it into the replacer. -/
theorem unpinPage_nonresident_mutates_and_returns_true :
    (unpinPage bpmC4 42 false).1 = true ∧
    (unpinPage bpmC4 42 false).2.page_table = [(7, 0), (42, 0)] ∧
    ((unpinPage bpmC4 42 false).2.pages.getD 0 default).pin_count = 0 ∧
    (unpinPage bpmC4 42 false).2.replacer = ⟨[(0, 1)], 0⟩ := by decide

/-- C5: invariant (I2) requires a successful `NewPage`/`FetchPage` to leave
the returned page's id mapped to its frame in `page_table`.  Both miss paths
insert the new mapping only inside the loop over existing mappings of the
victim frame, so a frame taken from the free list is never registered: on a
fresh one-frame pool, `NewPage` hands out frame 0 for page 0 with pin
count 1 while `page_table` stays empty. -/
theorem newPage_from_free_list_missing_page_table_entry :
    (newPage bpmC5).1 = some 0 ∧ (newPage bpmC5).2.1 = 0 ∧
    (newPage bpmC5).2.2.page_table = [] ∧
    ((newPage bpmC5).2.2.pages.getD 0 default).page_id = 0 ∧
    ((newPage bpmC5).2.2.pages.getD 0 default).pin_count = 1 := by decide

/-- C10: `NewPage` calls `AllocatePage` and stores the result through the
out-parameter before looking for a frame, so every call — including one
that fails with null because no victim exists — consumes a disk page id and
overwrites the caller's `page_id`. -/
theorem newPage_always_consumes_disk_page_id (bpm : BufferPoolManager) :
    (newPage bpm).2.1 = bpm.disk.next_page_id ∧
    (newPage bpm).2.2.disk.next_page_id = bpm.disk.next_page_id + 1 := by
  unfold newPage
  dsimp only [DiskManager.allocatePage, pickFrame]
  cases hfl : bpm.free_list with
  | cons f rest =>
    refine ⟨rfl, ?_⟩
    dsimp only
    split <;> rfl
  | nil =>
    dsimp only
    rcases hv : ClockReplacer.victim bpm.replacer with ⟨o, r'⟩
    cases o with
    | none => exact ⟨rfl, rfl⟩
    | some f =>
      refine ⟨rfl, ?_⟩
      dsimp only
      split <;> rfl

set_option maxRecDepth 1000000 in
/-- C6: the spec claims no `(key, value)` pair is ever stored twice, even
when a `Remove` has left a tombstone on the probe path before a live copy,
and the insert loop's own comment says duplicates are not allowed.  The
probe loop tests `IsReadable` (not `IsOccupied`), so it stops at the
tombstone without seeing the live copy behind it: after
`Insert(0,1); Insert(0,2); Remove(0,1); Insert(0,2)` on an 8-slot table with
the identity hash, `(0,2)` is live in two slots and `GetValue(0)` returns
`[2, 2]`. -/
theorem insert_stores_duplicate_past_tombstone :
    c6Run = some ([true, true, true, true], [2, 2], true, 2) := by decide

theorem getD_set_self {α : Type} (l : List α) (i : Nat) (a d : α) (h : i < l.length) :
    (l.set i a).getD i d = a := by
  simp [List.getD_eq_getElem?_getD, List.getElem?_set_eq_of_lt, h]

theorem getD_set_ne {α : Type} (l : List α) (i j : Nat) (a d : α) (h : i ≠ j) :
    (l.set i a).getD j d = l.getD j d := by
  simp [List.getD_eq_getElem?_getD, List.getElem?_set_ne h]

theorem shiftLeft_one_eq (t : Nat) : 1 <<< t = 2 ^ t := by
  simp [Nat.shiftLeft_eq]

theorem bitTest_eq_testBit (x t : Nat) : (x &&& (1 <<< t) != 0) = x.testBit t := by
  rw [shiftLeft_one_eq, Nat.and_two_pow]
  cases h : x.testBit t
  · simp
  · simp [(Nat.two_pow_pos t).ne']

theorem testBit_or_shift (b t s : Nat) :
    (b ||| (1 <<< t)).testBit s = (b.testBit s || decide (t = s)) := by
  rw [shiftLeft_one_eq, Nat.testBit_or]
  by_cases h : t = s
  · subst h; simp [Nat.testBit_two_pow_self]
  · simp [h, Nat.testBit_two_pow_of_ne h]

theorem testBit_and_mask (b t s : Nat) (hs : s < 8) :
    (b &&& (255 ^^^ (1 <<< t))).testBit s = (b.testBit s && !(decide (t = s))) := by
  rw [shiftLeft_one_eq, Nat.testBit_and, Nat.testBit_xor]
  have h255 : (255 : Nat) = 2 ^ 8 - 1 := by norm_num
  rw [h255, Nat.testBit_two_pow_sub_one]
  by_cases h : t = s
  · subst h; simp [Nat.testBit_two_pow_self, hs]
  · simp [h, Nat.testBit_two_pow_of_ne h, hs]

/-- C8: for a block page, `Remove(i)` clears only the readable bit of
slot `i`, leaving the occupied bitmap and the key/value array untouched and
every other readable bit as it was; a successful `Insert` into slot `i` sets
both the occupied and the readable bit of that slot; and neither operation
ever clears an occupied bit (tombstone semantics). -/
theorem blockPage_tombstone_semantics {K V : Type} [Inhabited K] [Inhabited V]
    (p : HashTableBlockPage K V) (i j : Nat) (k : K) (v : V)
    (hocc : i / 8 < p.occupied_.length) (hread : i / 8 < p.readable_.length)
    (hne : j ≠ i) :
    ((p.remove i).occupied_ = p.occupied_ ∧ (p.remove i).array_ = p.array_ ∧
      (p.remove i).isReadable i = false ∧
      (p.remove i).isReadable j = p.isReadable j) ∧
    ((p.insert i k v).1 = true →
      (p.insert i k v).2.isOccupied i = true ∧
      (p.insert i k v).2.isReadable i = true) ∧
    (∀ q : Nat, p.isOccupied q = true →
      (p.insert i k v).2.isOccupied q = true ∧
      (p.remove i).isOccupied q = true) := by
  have hmod : ∀ n : Nat, n % 8 < 8 := fun n => Nat.mod_lt _ (by norm_num)
  refine ⟨⟨rfl, rfl, ?_, ?_⟩, ?_, ?_⟩
  · unfold HashTableBlockPage.remove HashTableBlockPage.isReadable
    dsimp only
    rw [getD_set_self _ _ _ _ hread, bitTest_eq_testBit, testBit_and_mask _ _ _ (hmod i)]
    simp
  · unfold HashTableBlockPage.remove HashTableBlockPage.isReadable
    dsimp only
    by_cases hb : j / 8 = i / 8
    · rw [hb, getD_set_self _ _ _ _ hread, bitTest_eq_testBit, bitTest_eq_testBit,
        testBit_and_mask _ _ _ (hmod j)]
      have hbit : ¬(i % 8 = j % 8) := by
        intro hmodeq
        have hi := Nat.div_add_mod i 8
        have hj := Nat.div_add_mod j 8
        exact hne (by omega)
      simp [hbit]
    · rw [getD_set_ne _ _ _ _ _ (fun hc => hb hc.symm)]
  · intro hsucc
    unfold HashTableBlockPage.insert at hsucc ⊢
    dsimp only at hsucc ⊢
    by_cases hcond : (p.readable_.getD (i / 8) 0 &&& 1 <<< (i % 8) != 0) = true
    · rw [if_pos hcond] at hsucc; exact absurd hsucc (by simp)
    · rw [if_neg hcond]
      unfold HashTableBlockPage.isOccupied HashTableBlockPage.isReadable
      dsimp only
      rw [getD_set_self _ _ _ _ hocc, getD_set_self _ _ _ _ hread,
        bitTest_eq_testBit, bitTest_eq_testBit, testBit_or_shift, testBit_or_shift]
      simp
  · intro q hq
    constructor
    · unfold HashTableBlockPage.insert
      dsimp only
      by_cases hcond : (p.readable_.getD (i / 8) 0 &&& 1 <<< (i % 8) != 0) = true
      · rw [if_pos hcond]; exact hq
      · rw [if_neg hcond]
        unfold HashTableBlockPage.isOccupied at hq ⊢
        dsimp only
        by_cases hb : q / 8 = i / 8
        · rw [hb] at hq ⊢
          rw [getD_set_self _ _ _ _ hocc, bitTest_eq_testBit, testBit_or_shift]
          rw [bitTest_eq_testBit] at hq
          rw [List.getD_eq_getElem?_getD] at hq
          simp [hq]
        · rw [getD_set_ne _ _ _ _ _ (fun hc => hb hc.symm)]
          exact hq
    · exact hq

/-- Witness for C8: the theorem applied to the concrete page `pC8` at
`i = 1`, `j = 0`, pair `(5, 7)`, its hypotheses discharged by evaluation. -/
theorem blockPage_tombstone_semantics_witness :
    ((1 : Nat) / 8 < pC8.occupied_.length ∧ (1 : Nat) / 8 < pC8.readable_.length ∧
      (0 : Nat) ≠ 1) ∧
    (((pC8.remove 1).occupied_ = pC8.occupied_ ∧ (pC8.remove 1).array_ = pC8.array_ ∧
      (pC8.remove 1).isReadable 1 = false ∧
      (pC8.remove 1).isReadable 0 = pC8.isReadable 0) ∧
    ((pC8.insert 1 5 7).1 = true →
      (pC8.insert 1 5 7).2.isOccupied 1 = true ∧
      (pC8.insert 1 5 7).2.isReadable 1 = true) ∧
    (∀ q : Nat, pC8.isOccupied q = true →
      (pC8.insert 1 5 7).2.isOccupied q = true ∧
      (pC8.remove 1).isOccupied q = true)) :=
  ⟨⟨by decide, by decide, by decide⟩,
    blockPage_tombstone_semantics pC8 1 0 5 7 (by decide) (by decide) (by decide)⟩

set_option maxRecDepth 1000000 in
set_option maxHeartbeats 4000000 in
/-- C7: the spec claims every entry live before a doubling `Resize` is
returned by a subsequent `GetValue`.  When a re-insert issued by the rehash
loop itself overflows the new range, it triggers a nested `Resize` that
grows the table further and rehashes under the larger modulus; the outer
`Resize` then reassigns `size_ := initial_size`, shrinking the addressable
range back and stranding entries beyond it.  Concretely (`c7Run`): key 5 is
live with value 50 before `Resize 32` (`GetValue` returns `([50], true)`);
afterwards the table reports size 32, the pair sits readable at logical
slot 32 (block 4, slot 0), and `GetValue 5` returns `([], false)`. -/
theorem resize_with_nested_resize_loses_live_entry :
    c7Run = some ([true, true, true, true, true], ([50], true), ([], false),
      (32, true)) := by decide

/-!
Lemmas for C9: relating the bookkeeping fold to the page-store fold, and the
idempotence of the amended (LSN-advancing) Redo pass.
-/

theorem redoAdvStep_store (acc : RedoResult × Int) (r : LogRecord) :
    ((redoAdvStep acc r).1).store = redoRecordAdv acc.1.store r := rfl

theorem foldl_redoAdvStep_store (log : List LogRecord) :
    ∀ acc : RedoResult × Int,
      ((log.foldl redoAdvStep acc).1).store = log.foldl redoRecordAdv acc.1.store := by
  induction log with
  | nil => intro acc; rfl
  | cons r rest ih =>
    intro acc
    rw [List.foldl_cons, List.foldl_cons, ih, redoAdvStep_store]

theorem redoAdv_store_eq (log : List LogRecord) (st : RecoveryStore) :
    (redoAdv log st).store = redoPagesAdv log st :=
  foldl_redoAdvStep_store log (⟨st, [], []⟩, 0)

theorem redoPagesAdv_cons (a : LogRecord) (rest : List LogRecord) (st : RecoveryStore) :
    redoPagesAdv (a :: rest) st = redoPagesAdv rest (redoRecordAdv st a) := rfl

theorem lsn_mono_applied (st : RecoveryStore) (tp : Int) (pg : TablePage) (pid : Int)
    (h : (st.pages tp).page_lsn ≤ pg.page_lsn) :
    (st.pages pid).page_lsn ≤ (storeWrite st.pages tp pg pid).page_lsn := by
  unfold storeWrite
  split
  · next he => rw [he]; exact h
  · exact le_refl _

theorem redoRecordAdv_lsn_mono (st : RecoveryStore) (r : LogRecord)
    (hnp : r.body.isNewpage = false) (pid : Int) :
    (st.pages pid).page_lsn ≤ ((redoRecordAdv st r).pages pid).page_lsn := by
  rcases r with ⟨lsn, txn, prev, body⟩
  cases body with
  | BEGIN => exact le_refl _
  | COMMIT => exact le_refl _
  | ABORT => exact le_refl _
  | NEWPAGE prev_pid => simp [LogRecordBody.isNewpage] at hnp
  | INSERT rid t =>
    dsimp only [redoRecordAdv]
    split
    · next hguard => exact lsn_mono_applied st rid.page_id _ pid (le_of_lt hguard)
    · exact le_refl _
  | MARKDELETE rid t =>
    dsimp only [redoRecordAdv]
    split
    · next hguard => exact lsn_mono_applied st rid.page_id _ pid (le_of_lt hguard)
    · exact le_refl _
  | APPLYDELETE rid t =>
    dsimp only [redoRecordAdv]
    split
    · next hguard => exact lsn_mono_applied st rid.page_id _ pid (le_of_lt hguard)
    · exact le_refl _
  | ROLLBACKDELETE rid t =>
    dsimp only [redoRecordAdv]
    split
    · next hguard => exact lsn_mono_applied st rid.page_id _ pid (le_of_lt hguard)
    · exact le_refl _
  | UPDATE rid old_t new_t =>
    dsimp only [redoRecordAdv]
    split
    · next hguard => exact lsn_mono_applied st rid.page_id _ pid (le_of_lt hguard)
    · exact le_refl _

theorem storeWrite_self (pages : Int → TablePage) (pid : Int) (pg : TablePage) :
    storeWrite pages pid pg pid = pg := by
  simp [storeWrite]

theorem redoRecordAdv_lsn_target (st : RecoveryStore) (r : LogRecord) (pid : Int)
    (h : r.body.targetPage = some pid) :
    r.lsn ≤ ((redoRecordAdv st r).pages pid).page_lsn := by
  rcases r with ⟨lsn, txn, prev, body⟩
  cases body with
  | BEGIN => exact absurd h (by simp [LogRecordBody.targetPage])
  | COMMIT => exact absurd h (by simp [LogRecordBody.targetPage])
  | ABORT => exact absurd h (by simp [LogRecordBody.targetPage])
  | NEWPAGE prev_pid => exact absurd h (by simp [LogRecordBody.targetPage])
  | INSERT rid t =>
    dsimp only [LogRecordBody.targetPage] at h
    injection h with h
    subst h
    dsimp only [redoRecordAdv]
    split
    · dsimp only
      rw [storeWrite_self]
    · next hguard => exact le_of_not_lt hguard
  | MARKDELETE rid t =>
    dsimp only [LogRecordBody.targetPage] at h
    injection h with h
    subst h
    dsimp only [redoRecordAdv]
    split
    · dsimp only
      rw [storeWrite_self]
    · next hguard => exact le_of_not_lt hguard
  | APPLYDELETE rid t =>
    dsimp only [LogRecordBody.targetPage] at h
    injection h with h
    subst h
    dsimp only [redoRecordAdv]
    split
    · dsimp only
      rw [storeWrite_self]
    · next hguard => exact le_of_not_lt hguard
  | ROLLBACKDELETE rid t =>
    dsimp only [LogRecordBody.targetPage] at h
    injection h with h
    subst h
    dsimp only [redoRecordAdv]
    split
    · dsimp only
      rw [storeWrite_self]
    · next hguard => exact le_of_not_lt hguard
  | UPDATE rid old_t new_t =>
    dsimp only [LogRecordBody.targetPage] at h
    injection h with h
    subst h
    dsimp only [redoRecordAdv]
    split
    · dsimp only
      rw [storeWrite_self]
    · next hguard => exact le_of_not_lt hguard

theorem redoRecordAdv_skip (st : RecoveryStore) (r : LogRecord)
    (hnp : r.body.isNewpage = false)
    (h : ∀ pid, r.body.targetPage = some pid → r.lsn ≤ (st.pages pid).page_lsn) :
    redoRecordAdv st r = st := by
  rcases r with ⟨lsn, txn, prev, body⟩
  cases body with
  | BEGIN => rfl
  | COMMIT => rfl
  | ABORT => rfl
  | NEWPAGE prev_pid => simp [LogRecordBody.isNewpage] at hnp
  | INSERT rid t =>
    dsimp only [redoRecordAdv]
    rw [if_neg (not_lt.mpr (h rid.page_id rfl))]
  | MARKDELETE rid t =>
    dsimp only [redoRecordAdv]
    rw [if_neg (not_lt.mpr (h rid.page_id rfl))]
  | APPLYDELETE rid t =>
    dsimp only [redoRecordAdv]
    rw [if_neg (not_lt.mpr (h rid.page_id rfl))]
  | ROLLBACKDELETE rid t =>
    dsimp only [redoRecordAdv]
    rw [if_neg (not_lt.mpr (h rid.page_id rfl))]
  | UPDATE rid old_t new_t =>
    dsimp only [redoRecordAdv]
    rw [if_neg (not_lt.mpr (h rid.page_id rfl))]

theorem redoPagesAdv_lsn_mono (log : List LogRecord) (pid : Int) :
    ∀ st : RecoveryStore, (log.all fun r => !r.body.isNewpage) = true →
      (st.pages pid).page_lsn ≤ ((redoPagesAdv log st).pages pid).page_lsn := by
  induction log with
  | nil => intro st _; exact le_refl _
  | cons a rest ih =>
    intro st hnp
    rw [List.all_cons, Bool.and_eq_true] at hnp
    rw [redoPagesAdv_cons]
    exact le_trans (redoRecordAdv_lsn_mono st a (by simpa using hnp.1) pid)
      (ih (redoRecordAdv st a) hnp.2)

theorem redoPagesAdv_lsn_dominates (log : List LogRecord) (pid : Int) :
    ∀ st : RecoveryStore, (log.all fun r => !r.body.isNewpage) = true →
      ∀ r ∈ log, r.body.targetPage = some pid →
        r.lsn ≤ ((redoPagesAdv log st).pages pid).page_lsn := by
  induction log with
  | nil => intro st _ r hr; exact absurd hr (List.not_mem_nil r)
  | cons a rest ih =>
    intro st hnp r hr htp
    rw [List.all_cons, Bool.and_eq_true] at hnp
    rw [redoPagesAdv_cons]
    rcases List.mem_cons.mp hr with h | h
    · subst h
      exact le_trans (redoRecordAdv_lsn_target st r pid htp)
        (redoPagesAdv_lsn_mono rest pid (redoRecordAdv st r) hnp.2)
    · exact ih (redoRecordAdv st a) hnp.2 r h htp

theorem redoPagesAdv_skip (log : List LogRecord) :
    ∀ st : RecoveryStore, (log.all fun r => !r.body.isNewpage) = true →
      (∀ r ∈ log, ∀ pid, r.body.targetPage = some pid →
        r.lsn ≤ (st.pages pid).page_lsn) →
      redoPagesAdv log st = st := by
  induction log with
  | nil => intro st _ _; rfl
  | cons a rest ih =>
    intro st hnp hdom
    rw [List.all_cons, Bool.and_eq_true] at hnp
    rw [redoPagesAdv_cons,
      redoRecordAdv_skip st a (by simpa using hnp.1)
        (fun pid htp => hdom a (List.mem_cons_self a rest) pid htp)]
    exact ih st hnp.2 (fun r hr pid htp => hdom r (List.mem_cons_of_mem a hr) pid htp)

/-- C9 counterexample: Redo as implemented is not idempotent.  One INSERT
record with LSN 1 against a store whose page 0 has `page_lsn = 0`: the first
pass applies the insert (yielding one tuple) but nothing advances the page's
LSN, so a second pass re-applies it and the page ends with two copies. -/
theorem redo_twice_duplicates_insert :
    ((redo logC9 stC9).store.pages 0).slots = [some (5, false)] ∧
    ((redo logC9 (redo logC9 stC9).store).store.pages 0).slots =
      [some (5, false), some (5, false)] ∧
    (redo logC9 (redo logC9 stC9).store).store.pages 0 ≠
      (redo logC9 stC9).store.pages 0 := by decide

/-- C9 (amended): for a log of BEGIN/COMMIT/ABORT and the five guarded
record types (no NEWPAGE, whose replay allocates a fresh page on every
pass), the Redo pass is idempotent provided re-applying a record also
advances the target page's `page_lsn` to the record's LSN: the first pass
leaves every targeted page's LSN at or above every record's LSN, so the
`page_lsn < lsn` guard makes the second pass apply nothing.  The
implementation's table-page operations leave `page_lsn` unchanged, so the
guard does not deliver this (see the counterexample). -/
theorem redoAdv_idempotent (log : List LogRecord) (st : RecoveryStore)
    (hnp : (log.all fun r => !r.body.isNewpage) = true) :
    (redoAdv log (redoAdv log st).store).store = (redoAdv log st).store := by
  simp only [redoAdv_store_eq]
  exact redoPagesAdv_skip log (redoPagesAdv log st) hnp
    (fun r hr pid htp => redoPagesAdv_lsn_dominates log pid st hnp r hr htp)

/-- Witness for the amended C9 theorem at the concrete one-record log. -/
theorem redoAdv_idempotent_witness :
    (logC9.all fun r => !r.body.isNewpage) = true ∧
    (redoAdv logC9 (redoAdv logC9 stC9).store).store = (redoAdv logC9 stC9).store :=
  ⟨by decide, redoAdv_idempotent logC9 stC9 (by decide)⟩

end GiantDB
